import Mathlib

/-!
Verification of the payment-intermediary core (queue worker, router,
circuit breaker, health probe, redis-backed ledger) as a shallow
embedding.  Redis state is modelled explicitly: the per-payment hash
records as an association list keyed by `(group, correlation_id)`, the
`processed_payments` sorted set as an association list from member to
score.  Fallible store operations take explicit `Bool` success flags;
HTTP outcomes of the external processors are oracle parameters.
-/

deriving instance DecidableEq for Except

namespace Rinha

/-- Health state of an external processor (`domain/health_status.rs`). -/
inductive HealthStatus
  | Healthy
  | Failing
  | Slow
deriving DecidableEq, Repr

/-- Source `HealthStatus::is_healthy`: `matches!(self, Healthy)`. -/
def HealthStatus.is_healthy : HealthStatus → Bool
  | .Healthy => true
  | _ => false

/-- A payment (`domain/payment.rs`).  Amounts are the exact rational value
of the `f64`; timestamps are nanoseconds since the epoch. -/
structure Payment where
  correlation_id : String
  amount : ℚ
  requested_at : Option ℤ := none
  processed_at : Option ℤ := none
  processed_by : Option String := none
deriving DecidableEq, Repr

/-- A queue envelope (`domain/queue.rs`, `Message<B>`). -/
structure Message where
  id : String
  body : Payment
deriving DecidableEq, Repr

/-- Round the fraction `n / d` (with `0 < d`) to the nearest integer,
ties to even: `f` is the floor, `r ∈ [0, d)` the remainder, and the
fractional part `r / d` is compared with `1/2` via `2r` vs `d`.
`roundHalfToEvenFrac_eq_floor_based` below restates this through `⌊⌋`
and `Int.fract`. -/
def roundHalfToEvenFrac (n d : ℤ) : ℤ :=
  let f := n.fdiv d
  let r := n - f * d
  if 2 * r < d then f
  else if d < 2 * r then f + 1
  else if f % 2 = 0 then f else f + 1

/-- The integer number of hundredths written by `format!("{:.2}", amount)`
in `RedisPaymentRepository::save`: Rust formats the exact value of the
double rounded to two digits, ties to even.  `amount = num/den`, so the
hundredths are `(100 * num) / den` rounded half to even. -/
def format2cents (q : ℚ) : ℤ := roundHalfToEvenFrac (100 * q.num) q.den

/-- Modelled from the spec: the rounding the specification claims for
amounts, round half away from zero to two decimals (`spec.md` numeric
semantics); `⌊x + 1/2⌋` on the magnitude, via `⌊(2n + d) / 2d⌋` on the
fraction `n / d`.  Kept only to compare against `format2cents`. -/
def specRoundHalfAwayCents (q : ℚ) : ℤ :=
  let n := 100 * q.num
  let d : ℤ := q.den
  if 0 ≤ n then (2 * n + d).fdiv (2 * d) else -((2 * (-n) + d).fdiv (2 * d))

/-- One per-payment hash at `payment_summary:{group}:{id}`; `none` means
the field was never written. -/
structure LedgerRec where
  amount : Option ℤ := none
  requested_at : Option String := none
  processed_at : Option String := none
  processed_by : Option String := none
deriving DecidableEq, Repr

/-- The redis state owned by the ledger: the hash records and the
`processed_payments` sorted set (member, score). -/
structure Ledger where
  records : List ((String × String) × LedgerRec) := []
  index : List (String × ℤ) := []
deriving DecidableEq, Repr

/-- Association-list lookup for the record store. -/
def lookupAssoc : List ((String × String) × LedgerRec) → (String × String) → Option LedgerRec
  | [], _ => none
  | (k, r) :: rest, key => if k = key then some r else lookupAssoc rest key

/-- `HSET`-style field update: modify the hash at `key` through `f`,
creating an empty hash first when the key is absent. -/
def setField (rs : List ((String × String) × LedgerRec)) (key : String × String)
    (f : LedgerRec → LedgerRec) : List ((String × String) × LedgerRec) :=
  match rs with
  | [] => [(key, f {})]
  | (k, r) :: rest => if k = key then (k, f r) :: rest else (k, r) :: setField rest key f

/-- `ZADD`: insert or update the member's score. -/
def zaddList : List (String × ℤ) → String → ℤ → List (String × ℤ)
  | [], m, s => [(m, s)]
  | (m', s') :: rest, m, s => if m' = m then (m, s) :: rest else (m', s') :: zaddList rest m s

/-- `ZSCORE`: the member's score, if present. -/
def zscoreList : List (String × ℤ) → String → Option ℤ
  | [], _ => none
  | (m', s') :: rest, m => if m' = m then some s' else zscoreList rest m

/-- Commands issued by `RedisPaymentRepository::save`'s pipeline. -/
inductive StoreCmd
  | hsetAmount (group id : String) (cents : ℤ)
  | hsetMeta (group id : String) (requested_at processed_at processed_by : String)
  | zadd (member : String) (score : ℤ)
deriving DecidableEq, Repr

/-- Interpretation of one pipeline command on the ledger state. -/
def applyCmd (l : Ledger) : StoreCmd → Ledger
  | .hsetAmount g i c =>
      { l with records := setField l.records (g, i) (fun r => { r with amount := some c }) }
  | .hsetMeta g i ra pa pb =>
      { l with records :=
          setField l.records (g, i) (fun r =>
            { r with requested_at := some ra, processed_at := some pa,
                     processed_by := some pb }) }
  | .zadd m s => { l with index := zaddList l.index m s }

/-- `OffsetDateTime::to_string` stand-in for modelled timestamps. -/
def tsString (t : ℤ) : String := toString t

/-- The literal command list of `save`'s `redis::pipe().atomic()` block:
`HSET amount`, `HSET` of the remaining fields, `ZADD` of the id with
score `requested_at` in nanoseconds (`unwrap_or_default` gives 0). -/
def saveCmds (p : Payment) : List StoreCmd :=
  let pid := p.correlation_id
  let group := p.processed_by.getD ""
  [ .hsetAmount group pid (format2cents p.amount),
    .hsetMeta group pid ((p.requested_at.map tsString).getD "")
      ((p.processed_at.map tsString).getD "") group,
    .zadd pid (p.requested_at.getD 0) ]

/-- The state after the pipeline executed. -/
def saveApplied (p : Payment) (l : Ledger) : Ledger := (saveCmds p).foldl applyCmd l

/-- The hash contents written by `save` for a payment: every field of the
record is overwritten, so the result does not depend on what was there. -/
def savedRec (p : Payment) : LedgerRec :=
  { amount := some (format2cents p.amount),
    requested_at := some ((p.requested_at.map tsString).getD ""),
    processed_at := some ((p.processed_at.map tsString).getD ""),
    processed_by := some (p.processed_by.getD "") }

/-- `RedisPaymentRepository::save`: connection and `MULTI/EXEC` execution
may fail (`connOk`, `execOk`); the pipeline is atomic, so on any failure
the state is unchanged and the method returns an error (`false`). -/
def save (p : Payment) (l : Ledger) (connOk execOk : Bool) : Bool × Ledger :=
  if connOk && execOk then (true, saveApplied p l) else (false, l)

/-- `lookupRecord l (group, id)` is the hash at `payment_summary:{group}:{id}`. -/
def lookupRecord (l : Ledger) (key : String × String) : Option LedgerRec :=
  lookupAssoc l.records key

/-- `HGET payment_summary:{group}:{id} amount`, as the Lua script reads it. -/
def hgetAmount (l : Ledger) (group id : String) : Option ℤ :=
  (lookupRecord l (group, id)).bind (·.amount)

/-- Membership of an id in the `processed_payments` sorted set. -/
def isProcessedIndex (l : Ledger) (id : String) : Bool :=
  (zscoreList l.index id).isSome

/-- `RedisPaymentRepository::is_already_processed`: after a successful
connection, `con.zscore(..).await.ok()` turns any lookup failure or an
absent member into `None`, hence `Ok(false)`; only a present member
yields `Ok(true)`.  `zres` is the raw store response of the `ZSCORE`. -/
def is_already_processed (connOk : Bool) (zres : Except Unit (Option ℤ)) : Except Unit Bool :=
  if connOk then
    Except.ok (match zres with
      | .ok s => s.isSome
      | .error _ => false)
  else Except.error ()

/-- Number of per-payment records whose key's correlation id is `id`. -/
def countId (rs : List ((String × String) × LedgerRec)) (id : String) : ℕ :=
  (rs.filter (fun kv => decide (kv.1.2 = id))).length

/-- Ledger-level record count for one correlation id. -/
def recordCount (l : Ledger) (id : String) : ℕ := countId l.records id

/-- `ZRANGEBYSCORE processed_payments from to` with numeric (inclusive)
bounds: the members whose score lies in `[a, b]`. -/
def zrangebyscore (l : Ledger) (a b : ℤ) : List String :=
  (l.index.filter (fun e => decide (a ≤ e.2 ∧ e.2 ≤ b))).map (·.1)

/-- Loop body of the Lua script in
`RedisPaymentRepository::calculate_payments_summary_using_lua`: an id
contributes iff `HGET payment_summary:{group}:{id} amount` is non-nil. -/
def luaStep (l : Ledger) (group : String) (acc : ℕ × ℚ) (id : String) : ℕ × ℚ :=
  match hgetAmount l group id with
  | some c => (acc.1 + 1, acc.2 + (c : ℚ) / 100)
  | none => acc

/-- The Lua script: range-scan of the index, then per-id record reads,
accumulating a request count and an amount sum (the stored two-decimal
string `c/100` parsed back as a number). -/
def calculate_payments_summary_using_lua (l : Ledger) (group : String)
    (from_ts to_ts : ℤ) : ℕ × ℚ :=
  (zrangebyscore l from_ts to_ts).foldl (luaStep l group) (0, 0)

/-- `RedisPaymentRepository::get_summary_by_group`: obtain a connection,
then run the Lua script over `[from_ts, to_ts]` (nanosecond scores). -/
def get_summary_by_group (l : Ledger) (group : String) (from_ts to_ts : ℤ)
    (connOk : Bool) : Except Unit (ℕ × ℚ) :=
  if connOk then Except.ok (calculate_payments_summary_using_lua l group from_ts to_ts)
  else Except.error ()

/-- Modelled from the spec's range-correctness wording: the entries of
the time index with score in `[a, b]` that have a per-group record; the
result is their count and the sum of their stored amounts.  Kept only to
compare against the Lua computation. -/
def specRangeSummary (l : Ledger) (group : String) (a b : ℤ) : ℕ × ℚ :=
  let entries := (zrangebyscore l a b).filter (fun id => (hgetAmount l group id).isSome)
  (entries.length, (entries.map (fun id => (((hgetAmount l group id).getD 0 : ℤ) : ℚ) / 100)).sum)

/-- Circuit-breaker state (`circuitbreaker_rs::State`). -/
inductive BreakerState
  | Closed
  | Open
  | HalfOpen
deriving DecidableEq, Repr

/-- Shallow model of a `circuitbreaker_rs::CircuitBreaker`: its state and
the running failure/success statistics.  `call_async` short-circuits when
`Open`; an `Err` from the operation is recorded as a failure (the
policy's decision to open is the oracle flag `trip` below); an `Ok` is
recorded as a success and closes a `HalfOpen` breaker. -/
structure Breaker where
  st : BreakerState := .Closed
  failures : ℕ := 0
  successes : ℕ := 0
deriving DecidableEq, Repr

/-- Breaker bookkeeping on an operation `Ok`. -/
def recordSuccess (b : Breaker) : Breaker :=
  { b with successes := b.successes + 1,
           st := if b.st = .HalfOpen then .Closed else b.st }

/-- Breaker bookkeeping on an operation `Err`; `trip` is the policy's
decision whether the failure window now opens the breaker. -/
def recordFailure (b : Breaker) (trip : Bool) : Breaker :=
  { b with failures := b.failures + 1, st := if trip then .Open else b.st }

/-- Outcome of one outbound `POST {url}/payments` as the code observes it:
2xx, 4xx, 5xx-or-other-non-success, or a transport error from `send()`. -/
inductive HttpOutcome
  | success
  | clientError
  | serverError
  | netError
deriving DecidableEq, Repr

/-- Oracle data consumed by one `ProcessPaymentUseCase::execute` call:
the two `now_utc()` stamps, the HTTP outcome, the breaker policy's trip
decision, and the success flags of the ledger save. -/
structure ExecEnv where
  now1 : ℤ := 0
  now2 : ℤ := 0
  outcome : HttpOutcome := .success
  trip : Bool := false
  saveConnOk : Bool := true
  saveExecOk : Bool := true
deriving DecidableEq, Repr

/-- Result of one `execute` call: the returned `Result<bool, _>`, the
ledger and breaker afterwards, and whether the HTTP request was issued. -/
structure ExecResult where
  res : Except Unit Bool
  ledger : Ledger
  breaker : Breaker
  httpCalled : Bool
deriving DecidableEq, Repr

/-- The payment as stamped inside `execute`: `requested_at` before the
call, `processed_at`/`processed_by` before the save. -/
def stamped (p : Payment) (group : String) (env : ExecEnv) : Payment :=
  { p with requested_at := some env.now1, processed_at := some env.now2,
           processed_by := some group }

/-- `ProcessPaymentUseCase::execute` (`use_cases/process_payment.rs`).
The closure run through the breaker returns `Ok(true)` on 2xx,
`Ok(false)` on 4xx (`is_client_error`), and `Err` on any other status or
transport error.  `BreakerError::Open` is mapped to `Ok(false)`; on 2xx
the stamped payment is saved and a save error surfaces as `Err`. -/
def execute (p : Payment) (group : String) (b : Breaker) (l : Ledger)
    (env : ExecEnv) : ExecResult :=
  if b.st = .Open then
    { res := Except.ok false, ledger := l, breaker := b, httpCalled := false }
  else
    match env.outcome with
    | .clientError =>
        { res := Except.ok false, ledger := l, breaker := recordSuccess b,
          httpCalled := true }
    | .serverError =>
        { res := Except.error (), ledger := l, breaker := recordFailure b env.trip,
          httpCalled := true }
    | .netError =>
        { res := Except.error (), ledger := l, breaker := recordFailure b env.trip,
          httpCalled := true }
    | .success =>
        let sres := save (stamped p group env) l env.saveConnOk env.saveExecOk
        if sres.1 then
          { res := Except.ok true, ledger := sres.2, breaker := recordSuccess b,
            httpCalled := true }
        else
          { res := Except.error (), ledger := sres.2, breaker := recordSuccess b,
            httpCalled := true }

/-- The worker's use of `execute`: `.unwrap_or(false)` on the result. -/
def attempt (p : Payment) (group : String) (b : Breaker) (l : Ledger)
    (env : ExecEnv) : Bool × Ledger × Breaker × Bool :=
  let r := execute p group b l env
  (match r.res with
    | .ok v => v
    | .error _ => false, r.ledger, r.breaker, r.httpCalled)

/-- `is_backend_failing_or_slow` in the worker:
`processor_repo.get_health_of(name).await.unwrap_or(1) != 0`. -/
def is_backend_failing_or_slow (healthRes : Except Unit ℤ) : Bool :=
  decide ((match healthRes with
    | .ok v => v
    | .error _ => 1) ≠ 0)

/-- Oracle data for one worker iteration: store behaviour of the
deduplication read, the two health reads, the two potential `execute`
environments, and whether a re-enqueue push succeeds. -/
structure WorkerEnv where
  dedupConnOk : Bool := true
  dedupLookupFail : Bool := false
  defaultHealth : Except Unit ℤ := Except.ok 0
  fallbackHealth : Except Unit ℤ := Except.ok 0
  defaultExec : ExecEnv := {}
  fallbackExec : ExecEnv := {}
  requeuePushOk : Bool := true
deriving DecidableEq, Repr

/-- How one worker iteration disposed of the popped message. -/
inductive StepOutcome
  | skippedDuplicate
  | processed (group : String)
  | requeued
  | lostOnPushFailure
deriving DecidableEq, Repr

/-- In-process worker state: the queue contents, the ledger store, and
the two per-processor breakers. -/
structure WState where
  queue : List Message := []
  ledger : Ledger := {}
  default_breaker : Breaker := {}
  fallback_breaker : Breaker := {}
deriving DecidableEq, Repr

/-- Observables of one worker iteration: the disposition and whether each
processor was actually contacted over HTTP. -/
structure StepReport where
  outcome : StepOutcome
  defaultCalled : Bool
  fallbackCalled : Bool
deriving DecidableEq, Repr

/-- The worker's default-processor phase: skipped (`processed` stays
`false`, nothing touched) when `is_backend_failing_or_slow("default")`,
otherwise one `execute` attempt.  Returns
`(processed, ledger, default_breaker, http_called)`. -/
def defaultPhase (s : WState) (m : Message) (env : WorkerEnv) :
    Bool × Ledger × Breaker × Bool :=
  if is_backend_failing_or_slow env.defaultHealth then
    (false, s.ledger, s.default_breaker, false)
  else attempt m.body "default" s.default_breaker s.ledger env.defaultExec

/-- The worker's fallback-processor phase, given the default phase's
`processed` flag and ledger: skipped when already processed or
`is_backend_failing_or_slow("fallback")`, otherwise one `execute`
attempt. -/
def fallbackPhase (processed1 : Bool) (l1 : Ledger) (s : WState) (m : Message)
    (env : WorkerEnv) : Bool × Ledger × Breaker × Bool :=
  if processed1 || is_backend_failing_or_slow env.fallbackHealth then
    (processed1, l1, s.fallback_breaker, false)
  else attempt m.body "fallback" s.fallback_breaker l1 env.fallbackExec

/-- Body of one iteration of `payment_processing_worker` after a message
was popped (`s.queue` already excludes it): dedup check via
`is_already_processed` (skip only on `Ok(true)`), then the default
phase, then the fallback phase, and a tail re-enqueue of the same
message when no attempt processed it (a failed push only logs: the
message is lost). -/
def workerProcessMessage (s : WState) (m : Message) (env : WorkerEnv) :
    WState × StepReport :=
  let pid := m.body.correlation_id
  let dedup := is_already_processed env.dedupConnOk
    (if env.dedupLookupFail then Except.error ()
     else Except.ok (zscoreList s.ledger.index pid))
  if dedup = Except.ok true then
    (s, { outcome := .skippedDuplicate, defaultCalled := false, fallbackCalled := false })
  else
    let a1 := defaultPhase s m env
    let a2 := fallbackPhase a1.1 a1.2.1 s m env
    let s1 : WState := { s with ledger := a2.2.1, default_breaker := a1.2.2.1,
                                fallback_breaker := a2.2.2.1 }
    if a2.1 then
      (s1, { outcome := .processed (if a1.1 then "default" else "fallback"),
             defaultCalled := a1.2.2.2, fallbackCalled := a2.2.2.2 })
    else if env.requeuePushOk then
      ({ s1 with queue := s1.queue ++ [m] },
       { outcome := .requeued, defaultCalled := a1.2.2.2, fallbackCalled := a2.2.2.2 })
    else
      (s1, { outcome := .lostOnPushFailure, defaultCalled := a1.2.2.2,
             fallbackCalled := a2.2.2.2 })

/-- One worker loop iteration: pop the queue head (empty queue idles) and
process it. -/
def workerStep (s : WState) (env : WorkerEnv) : WState :=
  match s.queue with
  | [] => s
  | m :: rest => (workerProcessMessage { s with queue := rest } m env).1

/-- A run of the worker loop against a store whose queue and dedup reads
work (pop, `ZSCORE` and the re-enqueue push succeed; everything else —
health flags, HTTP outcomes, breaker policy, save success — comes from
the oracle stream). -/
def reliableStoreEnv (env : WorkerEnv) : WorkerEnv :=
  { env with dedupConnOk := true, dedupLookupFail := false, requeuePushOk := true }

/-- `n` worker iterations driven by the oracle stream `envs`. -/
def runWorker : ℕ → WState → (ℕ → WorkerEnv) → WState
  | 0, s, _ => s
  | n + 1, s, envs => runWorker n (workerStep s (reliableStoreEnv (envs 0))) (fun k => envs (k + 1))

/-- Some message for this correlation id is still pending in the queue. -/
def queueHasId (q : List Message) (id : String) : Prop :=
  ∃ m ∈ q, m.body.correlation_id = id

/-- The idempotency invariant for one correlation id: once indexed it has
exactly one ledger record, and while unindexed it has none but is still
pending in the queue. -/
def InvC1 (id : String) (s : WState) : Prop :=
  (isProcessedIndex s.ledger id = true → recordCount s.ledger id = 1) ∧
  (isProcessedIndex s.ledger id = false →
    recordCount s.ledger id = 0 ∧ queueHasId s.queue id)

/-- An external processor's registration in the router
(`domain/payment_processor.rs`). -/
structure PaymentProcessor where
  name : String
  url : String
  health : HealthStatus
  min_response_time : ℕ
deriving DecidableEq, Repr

/-- Lookup in the router's processor map. -/
def lookupProc : List (String × PaymentProcessor) → String → Option PaymentProcessor
  | [], _ => none
  | (k, p) :: rest, name => if k = name then some p else lookupProc rest name

/-- `HashMap::insert` for the processor map. -/
def insertProc : List (String × PaymentProcessor) → String → PaymentProcessor →
    List (String × PaymentProcessor)
  | [], name, p => [(name, p)]
  | (k, q) :: rest, name, p =>
      if k = name then (name, p) :: rest else (k, q) :: insertProc rest name p

/-- `InMemoryPaymentRouter`: the shared processor map plus one breaker
per processor. -/
structure RouterState where
  processors : List (String × PaymentProcessor) := []
  default_breaker : Breaker := {}
  fallback_breaker : Breaker := {}
deriving DecidableEq, Repr

/-- `InMemoryPaymentRouter::update_processor_health`. -/
def update_processor_health (r : RouterState) (p : PaymentProcessor) : RouterState :=
  { r with processors := insertProc r.processors p.name p }

/-- `InMemoryPaymentRouter::get_processor_for_payment`: the default
processor when registered, healthy, under 100 ms and its breaker not
`Open`; otherwise the fallback under the same conditions; otherwise
nothing. -/
def get_processor_for_payment (r : RouterState) : Option (String × String × Breaker) :=
  let tryDefault :=
    match lookupProc r.processors "default" with
    | some p =>
        if p.health.is_healthy = true ∧ p.min_response_time < 100 ∧
            r.default_breaker.st ≠ .Open then
          some (p.url, p.name, r.default_breaker)
        else none
    | none => none
  match tryDefault with
  | some x => some x
  | none =>
      match lookupProc r.processors "fallback" with
      | some p =>
          if p.health.is_healthy = true ∧ p.min_response_time < 100 ∧
              r.fallback_breaker.st ≠ .Open then
            some (p.url, p.name, r.fallback_breaker)
          else none
      | none => none

/-- Outcome of one health request in
`processor_health_monitor_worker`: a 2xx with parsed JSON body (missing
fields default to `failing = true`, `minResponseTime = 0`), a non-2xx
status, a 2xx whose body fails to parse, or a transport error. -/
inductive HealthFetch
  | ok (failing : Bool) (minResponseTime : ℕ)
  | non2xx
  | parseError
  | netError
deriving DecidableEq, Repr

/-- The probe's handling of one processor's health response: on parsed
2xx it writes the reported status and `minResponseTime`; on non-2xx or a
transport error it writes `Failing` with `min_response_time: 0`; on a
2xx body that fails to parse it only logs and writes nothing. -/
def probeUpdate (r : RouterState) (name url : String) (res : HealthFetch) : RouterState :=
  match res with
  | .ok failing mrt =>
      update_processor_health r
        ⟨name, url, if failing then .Failing else .Healthy, mrt⟩
  | .non2xx => update_processor_health r ⟨name, url, .Failing, 0⟩
  | .netError => update_processor_health r ⟨name, url, .Failing, 0⟩
  | .parseError => r

/-- One 5-second probe cycle: the default processor's update followed by
the fallback's. -/
def probeCycle (r : RouterState) (durl furl : String) (dres fres : HealthFetch) :
    RouterState :=
  probeUpdate (probeUpdate r "default" durl dres) "fallback" furl fres

/-- The ingress command (`use_cases/dto.rs`). -/
structure CreatePaymentCommand where
  correlation_id : String
  amount : ℚ
deriving DecidableEq, Repr

/-- `CreatePaymentUseCase::execute`: build the payment and push
`Message::with(command.correlation_id, payment)` — the envelope id is the
correlation id.  `pushOk` is the queue store's success. -/
def create_payment_execute (cmd : CreatePaymentCommand) (q : List Message)
    (pushOk : Bool) : Except Unit (List Message) :=
  let payment : Payment :=
    { correlation_id := cmd.correlation_id, amount := cmd.amount,
      requested_at := none, processed_at := none, processed_by := none }
  if pushOk then Except.ok (q ++ [{ id := cmd.correlation_id, body := payment }])
  else Except.error ()

/-- Fixture: a queued payment with an integral amount. -/
def msgA : Message := { id := "a", body := { correlation_id := "a", amount := 1 } }

/-- Fixture: both processors healthy, the default call succeeds. -/
def envHappy : WorkerEnv := { defaultExec := { now1 := 5, now2 := 6 } }

/-- Fixture: default returns 500, fallback healthy and succeeding. -/
def envFallbackWins : WorkerEnv :=
  { defaultExec := { outcome := .serverError },
    fallbackExec := { now1 := 7, now2 := 8 } }

/-- Fixture: default returns a 4xx, fallback gated off as failing. -/
def envClientErr : WorkerEnv :=
  { defaultExec := { outcome := .clientError }, fallbackHealth := Except.ok 1 }

/-- Fixture ledger for range summaries: `x` is in range with a record,
`y` is in range but has no record for group `default`, `z` is out of
range. -/
def ledgerC4 : Ledger :=
  { records := [(("default", "x"), { amount := some 150 })],
    index := [("x", 5), ("y", 6), ("z", 100)] }

/-- Fixture payment whose amount is exactly 0.125 (`1/8`). -/
def payC9 : Payment :=
  { correlation_id := "c9", amount := ⟨1, 8, by decide, by decide⟩,
    processed_by := some "default" }

/-- Fixture router with both processors registered, healthy and fast. -/
def routerBoth : RouterState :=
  { processors := [("default", ⟨"default", "http://d", .Healthy, 50⟩),
                   ("fallback", ⟨"fallback", "http://f", .Healthy, 50⟩)] }

/-- Fixture state whose ledger index already contains `msgA`'s id. -/
def sSeed : WState := { ledger := { index := [("a", 5)] } }

/-- Fixture message as produced by the ingress use case for
`correlationId = "abc"`. -/
def msgAbc : Message := { id := "abc", body := { correlation_id := "abc", amount := 1 } }

lemma lookupAssoc_setField_self (rs : List ((String × String) × LedgerRec))
    (key : String × String) (f : LedgerRec → LedgerRec) :
    lookupAssoc (setField rs key f) key = some (f ((lookupAssoc rs key).getD {})) := by
  induction rs with
  | nil => simp [setField, lookupAssoc]
  | cons kv rest ih =>
      obtain ⟨k, r⟩ := kv
      by_cases h : k = key
      · subst h
        simp [setField, lookupAssoc]
      · simp [setField, lookupAssoc, h, ih]

lemma lookupAssoc_setField_ne (rs : List ((String × String) × LedgerRec))
    (key key' : String × String) (f : LedgerRec → LedgerRec) (h : key' ≠ key) :
    lookupAssoc (setField rs key f) key' = lookupAssoc rs key' := by
  induction rs with
  | nil => simp [setField, lookupAssoc, Ne.symm h]
  | cons kv rest ih =>
      obtain ⟨k, r⟩ := kv
      by_cases hk : k = key
      · subst hk
        simp [setField, lookupAssoc, Ne.symm h]
      · by_cases hk' : k = key'
        · subst hk'
          simp [setField, lookupAssoc, hk]
        · simp [setField, lookupAssoc, hk, hk', ih]

lemma countId_cons (k : String × String) (r : LedgerRec)
    (rest : List ((String × String) × LedgerRec)) (id : String) :
    countId ((k, r) :: rest) id = countId rest id + (if k.2 = id then 1 else 0) := by
  by_cases hid : k.2 = id
  · simp [countId, List.filter_cons, hid]
  · simp [countId, List.filter_cons, hid]

lemma countId_setField_of_isSome (rs : List ((String × String) × LedgerRec))
    (key : String × String) (f : LedgerRec → LedgerRec)
    (h : (lookupAssoc rs key).isSome) (id : String) :
    countId (setField rs key f) id = countId rs id := by
  induction rs with
  | nil => simp [lookupAssoc] at h
  | cons kv rest ih =>
      obtain ⟨k, r⟩ := kv
      by_cases hk : k = key
      · subst hk
        simp only [setField, if_true]
        rw [countId_cons, countId_cons]
      · simp only [lookupAssoc, hk, if_false] at h
        simp only [setField, hk, if_false]
        rw [countId_cons, countId_cons, ih h]

lemma countId_setField_none_self (rs : List ((String × String) × LedgerRec))
    (key : String × String) (f : LedgerRec → LedgerRec)
    (h : lookupAssoc rs key = none) :
    countId (setField rs key f) key.2 = countId rs key.2 + 1 := by
  induction rs with
  | nil => simp [setField, countId]
  | cons kv rest ih =>
      obtain ⟨k, r⟩ := kv
      by_cases hk : k = key
      · subst hk
        simp [lookupAssoc] at h
      · simp only [lookupAssoc, hk, if_false] at h
        simp only [setField, hk, if_false]
        rw [countId_cons, countId_cons, ih h]
        omega

lemma countId_setField_ne (rs : List ((String × String) × LedgerRec))
    (key : String × String) (f : LedgerRec → LedgerRec) (id : String)
    (h : key.2 ≠ id) :
    countId (setField rs key f) id = countId rs id := by
  induction rs with
  | nil => simp [setField, countId, List.filter_cons, h]
  | cons kv rest ih =>
      obtain ⟨k, r⟩ := kv
      by_cases hk : k = key
      · subst hk
        simp only [setField, if_true]
        rw [countId_cons, countId_cons]
      · simp only [setField, hk, if_false]
        rw [countId_cons, countId_cons, ih]

lemma lookupAssoc_none_of_countId_zero (rs : List ((String × String) × LedgerRec))
    (id : String) (h : countId rs id = 0) (g : String) :
    lookupAssoc rs (g, id) = none := by
  induction rs with
  | nil => simp [lookupAssoc]
  | cons kv rest ih =>
      obtain ⟨k, r⟩ := kv
      by_cases hid : k.2 = id
      · simp [countId, List.filter_cons, hid] at h
      · simp only [countId, List.filter_cons, hid] at h
        simp only [decide_eq_true_eq] at h
        have h' : countId rest id = 0 := by
          simpa [countId, hid] using h
        have hk : k ≠ (g, id) := by
          intro hc
          exact hid (by rw [hc])
        simp [lookupAssoc, hk, ih h']

lemma zscoreList_zaddList_self (ix : List (String × ℤ)) (m : String) (s : ℤ) :
    zscoreList (zaddList ix m s) m = some s := by
  induction ix with
  | nil => simp [zaddList, zscoreList]
  | cons e rest ih =>
      obtain ⟨m', s'⟩ := e
      by_cases h : m' = m
      · subst h
        simp [zaddList, zscoreList]
      · simp [zaddList, zscoreList, h, ih]

lemma zscoreList_zaddList_ne (ix : List (String × ℤ)) (m : String) (s : ℤ)
    (m' : String) (h : m' ≠ m) :
    zscoreList (zaddList ix m s) m' = zscoreList ix m' := by
  induction ix with
  | nil => simp [zaddList, zscoreList, Ne.symm h]
  | cons e rest ih =>
      obtain ⟨k, v⟩ := e
      by_cases hk : k = m
      · subst hk
        simp [zaddList, zscoreList, Ne.symm h, h]
      · by_cases hk' : k = m'
        · subst hk'
          simp [zaddList, zscoreList, hk]
        · simp [zaddList, zscoreList, hk, hk', ih]

lemma saveApplied_records (p : Payment) (l : Ledger) :
    (saveApplied p l).records =
      setField
        (setField l.records (p.processed_by.getD "", p.correlation_id)
          (fun r => { r with amount := some (format2cents p.amount) }))
        (p.processed_by.getD "", p.correlation_id)
        (fun r =>
          { r with requested_at := some ((p.requested_at.map tsString).getD ""),
                   processed_at := some ((p.processed_at.map tsString).getD ""),
                   processed_by := some (p.processed_by.getD "") }) := rfl

lemma saveApplied_index (p : Payment) (l : Ledger) :
    (saveApplied p l).index =
      zaddList l.index p.correlation_id (p.requested_at.getD 0) := rfl

lemma lookupRecord_saveApplied_self (p : Payment) (l : Ledger) :
    lookupRecord (saveApplied p l) (p.processed_by.getD "", p.correlation_id) =
      some (savedRec p) := by
  rw [lookupRecord, saveApplied_records, lookupAssoc_setField_self,
    lookupAssoc_setField_self]
  rfl

lemma isProcessedIndex_saveApplied_self (p : Payment) (l : Ledger) :
    isProcessedIndex (saveApplied p l) p.correlation_id = true := by
  rw [isProcessedIndex, saveApplied_index, zscoreList_zaddList_self]
  rfl

lemma isProcessedIndex_saveApplied_ne (p : Payment) (l : Ledger) (id : String)
    (h : id ≠ p.correlation_id) :
    isProcessedIndex (saveApplied p l) id = isProcessedIndex l id := by
  rw [isProcessedIndex, saveApplied_index, zscoreList_zaddList_ne _ _ _ _ h,
    isProcessedIndex]

lemma recordCount_saveApplied_of_zero (p : Payment) (l : Ledger)
    (h : recordCount l p.correlation_id = 0) :
    recordCount (saveApplied p l) p.correlation_id = 1 := by
  have hnone := lookupAssoc_none_of_countId_zero l.records p.correlation_id h
    (p.processed_by.getD "")
  rw [recordCount, saveApplied_records]
  rw [countId_setField_of_isSome]
  · have := countId_setField_none_self l.records
      (p.processed_by.getD "", p.correlation_id)
      (fun r => { r with amount := some (format2cents p.amount) }) hnone
    simp only [recordCount] at h
    rw [this, h]
  · rw [lookupAssoc_setField_self]
    rfl

lemma recordCount_saveApplied_ne (p : Payment) (l : Ledger) (id : String)
    (h : id ≠ p.correlation_id) :
    recordCount (saveApplied p l) id = recordCount l id := by
  rw [recordCount, saveApplied_records, countId_setField_ne, countId_setField_ne,
    recordCount]
  · exact Ne.symm h
  · exact Ne.symm h

lemma save_eq (p : Payment) (l : Ledger) (c e : Bool) :
    save p l c e = if c && e then (true, saveApplied p l) else (false, l) := rfl

lemma save_snd_of_not_fst (p : Payment) (l : Ledger) (c e : Bool)
    (h : (save p l c e).1 = false) : (save p l c e).2 = l := by
  rw [save_eq] at h ⊢
  by_cases hce : (c && e) = true
  · simp [hce] at h
  · simp [hce]

lemma attempt_cases (p : Payment) (g : String) (b : Breaker) (l : Ledger)
    (env : ExecEnv) :
    ((attempt p g b l env).1 = true ∧
      (attempt p g b l env).2.1 = saveApplied (stamped p g env) l) ∨
    ((attempt p g b l env).1 = false ∧ (attempt p g b l env).2.1 = l) := by
  unfold attempt execute
  by_cases hb : b.st = BreakerState.Open
  · right
    simp [hb]
  · cases ho : env.outcome
    · cases hc : env.saveConnOk <;> cases he : env.saveExecOk <;>
        simp [hb, ho, save_eq, hc, he]
    · right; simp [hb, ho]
    · right; simp [hb, ho]
    · right; simp [hb, ho]

lemma attempt_fst_true (p : Payment) (g : String) (b : Breaker) (l : Ledger)
    (env : ExecEnv) (hb : b.st ≠ BreakerState.Open)
    (ho : env.outcome = HttpOutcome.success) (hc : env.saveConnOk = true)
    (he : env.saveExecOk = true) :
    attempt p g b l env =
      (true, saveApplied (stamped p g env) l, recordSuccess b, true) := by
  unfold attempt execute
  simp [hb, ho, save_eq, hc, he]

lemma workerProcessMessage_skip (s : WState) (m : Message) (env : WorkerEnv)
    (hconn : env.dedupConnOk = true) (hlf : env.dedupLookupFail = false)
    (hskip : isProcessedIndex s.ledger m.body.correlation_id = true) :
    workerProcessMessage s m env =
      (s, { outcome := .skippedDuplicate, defaultCalled := false,
            fallbackCalled := false }) := by
  unfold workerProcessMessage
  rw [hconn, hlf]
  rw [isProcessedIndex] at hskip
  simp [is_already_processed, hskip]

lemma workerProcessMessage_attempts (s : WState) (m : Message) (env : WorkerEnv)
    (hconn : env.dedupConnOk = true) (hlf : env.dedupLookupFail = false)
    (hskip : isProcessedIndex s.ledger m.body.correlation_id = false) :
    workerProcessMessage s m env =
      (let a1 := defaultPhase s m env
       let a2 := fallbackPhase a1.1 a1.2.1 s m env
       let s1 : WState := { s with ledger := a2.2.1, default_breaker := a1.2.2.1,
                                   fallback_breaker := a2.2.2.1 }
       if a2.1 then
         (s1, { outcome := .processed (if a1.1 then "default" else "fallback"),
                defaultCalled := a1.2.2.2, fallbackCalled := a2.2.2.2 })
       else if env.requeuePushOk then
         ({ s1 with queue := s1.queue ++ [m] },
          { outcome := .requeued, defaultCalled := a1.2.2.2,
            fallbackCalled := a2.2.2.2 })
       else
         (s1, { outcome := .lostOnPushFailure, defaultCalled := a1.2.2.2,
                fallbackCalled := a2.2.2.2 })) := by
  unfold workerProcessMessage
  rw [hconn, hlf]
  rw [isProcessedIndex] at hskip
  simp [is_already_processed, hskip]

lemma defaultPhase_cases (s : WState) (m : Message) (env : WorkerEnv) :
    ((defaultPhase s m env).1 = true ∧
      (defaultPhase s m env).2.1 =
        saveApplied (stamped m.body "default" env.defaultExec) s.ledger) ∨
    ((defaultPhase s m env).1 = false ∧ (defaultPhase s m env).2.1 = s.ledger) := by
  unfold defaultPhase
  by_cases hg : is_backend_failing_or_slow env.defaultHealth = true
  · right
    simp [hg]
  · simp only [Bool.not_eq_true] at hg
    simp only [hg, Bool.false_eq_true, if_false]
    exact attempt_cases m.body "default" s.default_breaker s.ledger env.defaultExec

lemma fallbackPhase_of_processed (l1 : Ledger) (s : WState) (m : Message)
    (env : WorkerEnv) :
    fallbackPhase true l1 s m env = (true, l1, s.fallback_breaker, false) := by
  unfold fallbackPhase
  simp

lemma fallbackPhase_cases (l1 : Ledger) (s : WState) (m : Message) (env : WorkerEnv) :
    ((fallbackPhase false l1 s m env).1 = true ∧
      (fallbackPhase false l1 s m env).2.1 =
        saveApplied (stamped m.body "fallback" env.fallbackExec) l1) ∨
    ((fallbackPhase false l1 s m env).1 = false ∧
      (fallbackPhase false l1 s m env).2.1 = l1) := by
  unfold fallbackPhase
  by_cases hg : is_backend_failing_or_slow env.fallbackHealth = true
  · right
    simp [hg]
  · simp only [Bool.not_eq_true] at hg
    simp only [hg, Bool.false_or, Bool.false_eq_true, if_false]
    exact attempt_cases m.body "fallback" s.fallback_breaker l1 env.fallbackExec

lemma invC1_ledger_after_save (id : String) (p : Payment) (l : Ledger)
    (hid : p.correlation_id = id) (hzero : recordCount l id = 0) :
    isProcessedIndex (saveApplied p l) id = true ∧
      recordCount (saveApplied p l) id = 1 := by
  constructor
  · rw [← hid]
    exact isProcessedIndex_saveApplied_self p l
  · rw [← hid] at hzero ⊢
    exact recordCount_saveApplied_of_zero p l hzero

lemma invC1_ledger_other (id : String) (p : Payment) (l : Ledger)
    (hid : id ≠ p.correlation_id) :
    isProcessedIndex (saveApplied p l) id = isProcessedIndex l id ∧
      recordCount (saveApplied p l) id = recordCount l id :=
  ⟨isProcessedIndex_saveApplied_ne p l id hid,
   recordCount_saveApplied_ne p l id hid⟩

lemma workerProcessMessage_shape (s : WState) (m : Message) (env : WorkerEnv)
    (hconn : env.dedupConnOk = true) (hlf : env.dedupLookupFail = false)
    (hpush : env.requeuePushOk = true)
    (hskip' : isProcessedIndex s.ledger m.body.correlation_id = false) :
    (∃ p : Payment, p.correlation_id = m.body.correlation_id ∧
       (workerProcessMessage s m env).1.ledger = saveApplied p s.ledger ∧
       (workerProcessMessage s m env).1.queue = s.queue) ∨
    ((workerProcessMessage s m env).1.ledger = s.ledger ∧
       (workerProcessMessage s m env).1.queue = s.queue ++ [m]) := by
  rw [workerProcessMessage_attempts s m env hconn hlf hskip']
  simp only
  rcases defaultPhase_cases s m env with ⟨h1t, h1l⟩ | ⟨h1f, h1l⟩
  · left
    refine ⟨stamped m.body "default" env.defaultExec, rfl, ?_, ?_⟩
    · rw [h1t, fallbackPhase_of_processed]
      simp [h1l]
    · rw [h1t, fallbackPhase_of_processed]
      simp
  · rw [h1f, h1l]
    rcases fallbackPhase_cases s.ledger s m env with ⟨h2t, h2l⟩ | ⟨h2f, h2l⟩
    · left
      refine ⟨stamped m.body "fallback" env.fallbackExec, rfl, ?_, ?_⟩
      · simp [h2t, h2l]
      · simp [h2t]
    · right
      constructor
      · simp [h2f, h2l, hpush]
      · simp [h2f, hpush]

lemma invC1_processMessage (id : String) (q : List Message) (l : Ledger)
    (db fb : Breaker) (m : Message) (env : WorkerEnv)
    (hconn : env.dedupConnOk = true) (hlf : env.dedupLookupFail = false)
    (hpush : env.requeuePushOk = true)
    (h : InvC1 id ⟨m :: q, l, db, fb⟩) :
    InvC1 id (workerProcessMessage ⟨q, l, db, fb⟩ m env).1 := by
  have hC1 : isProcessedIndex l id = true → recordCount l id = 1 := h.1
  have hqtail : isProcessedIndex l id = false → m.body.correlation_id ≠ id →
      queueHasId q id := by
    intro hfalse hne
    obtain ⟨m', hm', hcid⟩ := (h.2 hfalse).2
    rcases List.mem_cons.mp hm' with rfl | hmq
    · exact absurd hcid hne
    · exact ⟨m', hmq, hcid⟩
  set s : WState := ⟨q, l, db, fb⟩ with hs
  by_cases hskip : isProcessedIndex l m.body.correlation_id = true
  · rw [workerProcessMessage_skip s m env hconn hlf hskip]
    refine ⟨hC1, fun hfalse => ⟨(h.2 hfalse).1, ?_⟩⟩
    refine hqtail hfalse fun hpid => ?_
    rw [hpid] at hskip
    rw [hskip] at hfalse
    cases hfalse
  · simp only [Bool.not_eq_true] at hskip
    rcases workerProcessMessage_shape s m env hconn hlf hpush hskip with
      ⟨p, hpcid, hledger, hqueue⟩ | ⟨hledger, hqueue⟩
    · -- some attempt saved the stamped payment
      constructor
      · intro htrue
        rw [hledger] at htrue ⊢
        by_cases hpid : m.body.correlation_id = id
        · have hzero : recordCount l id = 0 := (h.2 (hpid ▸ hskip)).1
          exact (invC1_ledger_after_save id p l (hpcid.trans hpid) hzero).2
        · have hne : id ≠ p.correlation_id := fun hc =>
            hpid (hc.trans hpcid).symm
          obtain ⟨hidx, hcnt⟩ := invC1_ledger_other id p l hne
          rw [hcnt]
          exact hC1 (hidx ▸ htrue)
      · intro hfalse
        rw [hledger] at hfalse
        rw [hledger, hqueue]
        by_cases hpid : m.body.correlation_id = id
        · have hzero : recordCount l id = 0 := (h.2 (hpid ▸ hskip)).1
          have hidx := (invC1_ledger_after_save id p l (hpcid.trans hpid) hzero).1
          rw [hidx] at hfalse
          cases hfalse
        · have hne : id ≠ p.correlation_id := fun hc =>
            hpid (hc.trans hpcid).symm
          obtain ⟨hidx, hcnt⟩ := invC1_ledger_other id p l hne
          rw [hidx] at hfalse
          exact ⟨hcnt.trans (h.2 hfalse).1, hqtail hfalse hpid⟩
    · -- nothing processed: the message went back to the tail
      refine ⟨?_, ?_⟩
      · intro htrue
        rw [hledger] at htrue
        rw [hledger]
        exact hC1 htrue
      · intro hfalse
        rw [hledger] at hfalse
        rw [hledger, hqueue]
        refine ⟨(h.2 hfalse).1, ?_⟩
        obtain ⟨m', hm', hcid⟩ := (h.2 hfalse).2
        rcases List.mem_cons.mp hm' with rfl | hmq
        · exact ⟨m', List.mem_append_right _ (List.mem_singleton.mpr rfl), hcid⟩
        · exact ⟨m', List.mem_append_left _ hmq, hcid⟩

lemma invC1_workerStep (id : String) (s : WState) (env : WorkerEnv)
    (h : InvC1 id s) : InvC1 id (workerStep s (reliableStoreEnv env)) := by
  obtain ⟨q, l, db, fb⟩ := s
  cases q with
  | nil => exact h
  | cons m rest =>
      exact invC1_processMessage id rest l db fb m (reliableStoreEnv env)
        rfl rfl rfl h

lemma invC1_runWorker (id : String) : ∀ (n : ℕ) (s : WState)
    (envs : ℕ → WorkerEnv), InvC1 id s → InvC1 id (runWorker n s envs) := by
  intro n
  induction n with
  | zero => exact fun s envs h => h
  | succ k ih =>
      exact fun s envs h => ih _ _ (invC1_workerStep id s (envs 0) h)

lemma foldl_luaStep_eq (l : Ledger) (g : String) : ∀ (ids : List String)
    (acc : ℕ × ℚ),
    ids.foldl (luaStep l g) acc =
      (acc.1 + (ids.filter (fun id => (hgetAmount l g id).isSome)).length,
       acc.2 + ((ids.filter (fun id => (hgetAmount l g id).isSome)).map
         (fun id => (((hgetAmount l g id).getD 0 : ℤ) : ℚ) / 100)).sum) := by
  intro ids
  induction ids with
  | nil => intro acc; simp
  | cons a rest ih =>
      intro acc
      cases ha : hgetAmount l g a with
      | none =>
          simp only [List.foldl_cons, luaStep, ha]
          rw [ih acc]
          simp [List.filter_cons, ha]
      | some c =>
          simp only [List.foldl_cons, luaStep, ha]
          rw [ih (acc.1 + 1, acc.2 + (c : ℚ) / 100)]
          simp only [List.filter_cons, ha, Option.isSome_some, if_true,
            List.length_cons, List.map_cons, List.sum_cons, Option.getD_some,
            Prod.mk.injEq]
          constructor
          · omega
          · ring

lemma lookupProc_insertProc_self (ps : List (String × PaymentProcessor))
    (name : String) (p : PaymentProcessor) :
    lookupProc (insertProc ps name p) name = some p := by
  induction ps with
  | nil => simp [insertProc, lookupProc]
  | cons e rest ih =>
      obtain ⟨k, q⟩ := e
      by_cases hk : k = name
      · subst hk
        simp [insertProc, lookupProc]
      · simp [insertProc, lookupProc, hk, ih]

lemma lookupProc_insertProc_ne (ps : List (String × PaymentProcessor))
    (name : String) (p : PaymentProcessor) (name' : String) (h : name' ≠ name) :
    lookupProc (insertProc ps name p) name' = lookupProc ps name' := by
  induction ps with
  | nil => simp [insertProc, lookupProc, Ne.symm h]
  | cons e rest ih =>
      obtain ⟨k, q⟩ := e
      by_cases hk : k = name
      · subst hk
        simp [insertProc, lookupProc, Ne.symm h, h]
      · by_cases hk' : k = name'
        · subst hk'
          simp [insertProc, lookupProc, hk]
        · simp [insertProc, lookupProc, hk, hk', ih]

lemma workerProcessMessage_requeued_queue (s : WState) (m : Message)
    (env : WorkerEnv)
    (h : (workerProcessMessage s m env).2.outcome = StepOutcome.requeued) :
    (workerProcessMessage s m env).1.queue = s.queue ++ [m] := by
  unfold workerProcessMessage at h ⊢
  simp only at h ⊢
  split_ifs at h ⊢ <;> simp_all

lemma roundHalfToEvenFrac_eq_floor_based (n : ℤ) (d : ℕ) (hd : 0 < d) :
    roundHalfToEvenFrac n d =
      if Int.fract ((n : ℚ) / (d : ℚ)) < 1/2 then ⌊(n : ℚ) / (d : ℚ)⌋
      else if 1/2 < Int.fract ((n : ℚ) / (d : ℚ)) then ⌊(n : ℚ) / (d : ℚ)⌋ + 1
      else if ⌊(n : ℚ) / (d : ℚ)⌋ % 2 = 0 then ⌊(n : ℚ) / (d : ℚ)⌋
      else ⌊(n : ℚ) / (d : ℚ)⌋ + 1 := by
  have hdq : (0 : ℚ) < (d : ℚ) := by exact_mod_cast hd
  have hfl : n.fdiv (d : ℤ) = ⌊(n : ℚ) / (d : ℚ)⌋ := by
    rw [Rat.floor_intCast_div_natCast, Int.fdiv_eq_ediv _ (by exact_mod_cast hd.le)]
  have hfr : Int.fract ((n : ℚ) / (d : ℚ)) =
      ((n - ⌊(n : ℚ) / (d : ℚ)⌋ * d : ℤ) : ℚ) / (d : ℚ) := by
    rw [Int.fract]
    push_cast
    field_simp
    ring
  have h1 : (2 * (n - ⌊(n : ℚ) / (d : ℚ)⌋ * d) < (d : ℤ)) ↔
      Int.fract ((n : ℚ) / (d : ℚ)) < 1/2 := by
    rw [hfr, div_lt_div_iff₀ hdq (by norm_num : (0 : ℚ) < 2), one_mul]
    constructor
    · intro h
      have h' : ((n - ⌊(n : ℚ) / (d : ℚ)⌋ * d) * 2 : ℤ) < (d : ℤ) := by linarith
      exact_mod_cast h'
    · intro h
      have h' : ((n - ⌊(n : ℚ) / (d : ℚ)⌋ * d) * 2 : ℤ) < (d : ℤ) := by
        exact_mod_cast h
      linarith
  have h2 : ((d : ℤ) < 2 * (n - ⌊(n : ℚ) / (d : ℚ)⌋ * d)) ↔
      (1/2 < Int.fract ((n : ℚ) / (d : ℚ))) := by
    rw [hfr, lt_div_iff₀ hdq]
    constructor
    · intro h
      have h' : ((d : ℤ) : ℚ) < ((2 * (n - ⌊(n : ℚ) / (d : ℚ)⌋ * d) : ℤ) : ℚ) := by
        exact_mod_cast h
      push_cast at h' ⊢
      linarith
    · intro h
      push_cast at h
      have h' : ((d : ℤ) : ℚ) < ((2 * (n - ⌊(n : ℚ) / (d : ℚ)⌋ * d) : ℤ) : ℚ) := by
        push_cast
        linarith
      exact_mod_cast h'
  unfold roundHalfToEvenFrac
  simp only [hfl]
  rw [if_congr h1 rfl rfl, if_congr h2 rfl rfl]

lemma specRoundHalfAwayCents_eq (q : ℚ) :
    specRoundHalfAwayCents q =
      if 0 ≤ q then ⌊100 * q + 1/2⌋ else -⌊-(100 * q) + 1/2⌋ := by
  have hdpos : 0 < q.den := q.pos
  have hdq : (0 : ℚ) < (q.den : ℚ) := by exact_mod_cast hdpos
  have key : ∀ m : ℤ, (2 * m + (q.den : ℤ)).fdiv (2 * (q.den : ℤ)) =
      ⌊(m : ℚ) / (q.den : ℚ) + 1/2⌋ := by
    intro m
    have hcast : ((2 * m + (q.den : ℤ) : ℤ) : ℚ) / (((2 * q.den : ℕ)) : ℚ) =
        (m : ℚ) / (q.den : ℚ) + 1/2 := by
      push_cast
      field_simp
      ring
    calc (2 * m + (q.den : ℤ)).fdiv (2 * (q.den : ℤ))
        = (2 * m + (q.den : ℤ)) / ((2 * q.den : ℕ) : ℤ) := by
          rw [Int.fdiv_eq_ediv _ (by positivity)]
          push_cast
          rfl
      _ = ⌊((2 * m + (q.den : ℤ) : ℤ) : ℚ) / (((2 * q.den : ℕ)) : ℚ)⌋ :=
          (Rat.floor_intCast_div_natCast _ _).symm
      _ = ⌊(m : ℚ) / (q.den : ℚ) + 1/2⌋ := by rw [hcast]
  have hv : ((100 * q.num : ℤ) : ℚ) / (q.den : ℚ) = 100 * q := by
    push_cast
    rw [mul_div_assoc, Rat.num_div_den]
  have hvneg : ((-(100 * q.num) : ℤ) : ℚ) / (q.den : ℚ) = -(100 * q) := by
    push_cast
    rw [neg_div, mul_div_assoc, Rat.num_div_den]
  have hcond : (0 ≤ 100 * q.num) ↔ (0 ≤ q) := by
    rw [← Rat.num_nonneg]
    omega
  unfold specRoundHalfAwayCents
  simp only
  rw [key (100 * q.num), key (-(100 * q.num)), hv, hvneg]
  rw [if_congr hcond rfl rfl]

lemma format2cents_eq_floor_based (q : ℚ) :
    format2cents q =
      if Int.fract (100 * q) < 1/2 then ⌊(100 * q : ℚ)⌋
      else if 1/2 < Int.fract (100 * q) then ⌊(100 * q : ℚ)⌋ + 1
      else if ⌊(100 * q : ℚ)⌋ % 2 = 0 then ⌊(100 * q : ℚ)⌋
      else ⌊(100 * q : ℚ)⌋ + 1 := by
  have hv : ((100 * q.num : ℤ) : ℚ) / (q.den : ℚ) = 100 * q := by
    push_cast
    rw [mul_div_assoc, Rat.num_div_den]
  rw [format2cents, roundHalfToEvenFrac_eq_floor_based _ _ q.pos, hv]

lemma attempt_called (p : Payment) (g : String) (b : Breaker) (l : Ledger)
    (env : ExecEnv) (hb : b.st ≠ BreakerState.Open) :
    (attempt p g b l env).2.2.2 = true := by
  unfold attempt execute
  cases ho : env.outcome <;> simp [hb, ho, save_eq] <;> split_ifs <;> rfl

/-- Claim C3: `save` writes the per-payment hash record and the
correlation id's index entry under one atomic `MULTI/EXEC` pipeline: a
successful save leaves both the record and the index entry present; any
failed save (connection or execution) leaves the ledger exactly
unchanged; and whenever the saved key's record-present-iff-indexed
equivalence held before a save, it still holds after it. -/
theorem c3_save_atomicity (p : Payment) (l : Ledger) (connOk execOk : Bool) :
    ((save p l connOk execOk).1 = false → (save p l connOk execOk).2 = l) ∧
    ((save p l connOk execOk).1 = true →
      isProcessedIndex (save p l connOk execOk).2 p.correlation_id = true ∧
      lookupRecord (save p l connOk execOk).2
        (p.processed_by.getD "", p.correlation_id) = some (savedRec p)) ∧
    ((isProcessedIndex l p.correlation_id =
        (lookupRecord l (p.processed_by.getD "", p.correlation_id)).isSome) →
      isProcessedIndex (save p l connOk execOk).2 p.correlation_id =
        (lookupRecord (save p l connOk execOk).2
          (p.processed_by.getD "", p.correlation_id)).isSome) := by
  by_cases hce : (connOk && execOk) = true
  · refine ⟨?_, ?_, ?_⟩
    · intro hf
      rw [save_eq, if_pos hce] at hf
      cases hf
    · intro _
      rw [save_eq, if_pos hce]
      exact ⟨isProcessedIndex_saveApplied_self p l,
        lookupRecord_saveApplied_self p l⟩
    · intro _
      rw [save_eq, if_pos hce]
      rw [isProcessedIndex_saveApplied_self p l, lookupRecord_saveApplied_self p l]
      rfl
  · refine ⟨?_, ?_, ?_⟩
    · intro _
      rw [save_eq, if_neg hce]
    · intro ht
      rw [save_eq, if_neg hce] at ht
      cases ht
    · intro h
      rw [save_eq, if_neg hce]
      exact h

/-- Claim C3 witness: a concrete successful save puts both the index
entry and the record in place. -/
theorem c3_witness :
    isProcessedIndex (save payC9 {} true true).2 "c9" = true ∧
    lookupRecord (save payC9 {} true true).2 ("default", "c9") =
      some (savedRec payC9) :=
  (c3_save_atomicity payC9 {} true true).2.1 rfl

/-- Claim C4: `get_summary_by_group` over an inclusive score range
returns exactly the count and amount-sum of the index entries whose
score lies in `[a, b]` and that have a per-group `amount` record; ids in
the index without a record for the group contribute nothing. -/
theorem c4_range_summary_correct (l : Ledger) (group : String) (a b : ℤ)
    (_hab : a ≤ b) :
    get_summary_by_group l group a b true =
      Except.ok (specRangeSummary l group a b) := by
  unfold get_summary_by_group calculate_payments_summary_using_lua specRangeSummary
  rw [foldl_luaStep_eq]
  simp

/-- Claim C4 witness: on a concrete ledger the in-range indexed id with
a record is counted, the in-range id without a record and the
out-of-range id are not. -/
theorem c4_witness :
    get_summary_by_group ledgerC4 "default" 0 10 true =
      Except.ok (specRangeSummary ledgerC4 "default" 0 10) ∧
    (specRangeSummary ledgerC4 "default" 0 10).1 = 1 ∧
    zrangebyscore ledgerC4 0 10 = ["x", "y"] :=
  ⟨c4_range_summary_correct ledgerC4 "default" 0 10 (by decide), by decide,
    by decide⟩

/-- Claim C6: a 4xx from the processor is returned to the breaker's
closure as `Ok(false)`, so the breaker records no operation failure —
its failure count changes only on 5xx or transport errors (and only when
the call was admitted at all); on a 4xx the use case returns `Ok(false)`
and writes nothing to the ledger. -/
theorem c6_client_error_breaker_frame (p : Payment) (group : String)
    (b : Breaker) (l : Ledger) (env : ExecEnv) :
    ((execute p group b l env).breaker.failures =
      b.failures +
        (if b.st ≠ BreakerState.Open ∧
            (env.outcome = HttpOutcome.serverError ∨
             env.outcome = HttpOutcome.netError)
         then 1 else 0)) ∧
    (env.outcome = HttpOutcome.clientError →
      (execute p group b l env).res = Except.ok false ∧
      (execute p group b l env).ledger = l ∧
      (execute p group b l env).breaker.failures = b.failures) := by
  unfold execute
  by_cases hb : b.st = BreakerState.Open
  · simp [hb]
  · cases ho : env.outcome
    · constructor
      · simp only [hb, ho, if_false]
        split_ifs <;> simp_all [recordSuccess]
      · intro hc
        simp at hc
    · simp [hb, ho, recordSuccess]
    · simp [hb, ho, recordFailure]
    · simp [hb, ho, recordFailure]

/-- Claim C6 witness: concrete 4xx execution leaves the failure count at
its prior value and saves nothing. -/
theorem c6_witness :
    (execute msgA.body "default" { failures := 3 } {} { outcome := .clientError }).res =
      Except.ok false ∧
    (execute msgA.body "default" { failures := 3 } {} { outcome := .clientError }).ledger = {} ∧
    (execute msgA.body "default" { failures := 3 } {} { outcome := .clientError }).breaker.failures = 3 :=
  (c6_client_error_breaker_frame msgA.body "default" { failures := 3 } {}
    { outcome := .clientError }).2 rfl

/-- Claim C9 (amended): `save` stores the amount with exactly two
fractional digits (an integer number of hundredths), obtained by
rounding the exact value half to even — Rust's `format!("{:.2}", _)`
semantics — not half away from zero. -/
theorem c9_amount_rounding_amended (p : Payment) (l : Ledger) :
    (save p l true true).1 = true ∧
    hgetAmount (save p l true true).2 (p.processed_by.getD "") p.correlation_id =
      some (format2cents p.amount) ∧
    format2cents p.amount =
      (if Int.fract (100 * p.amount) < 1/2 then ⌊(100 * p.amount : ℚ)⌋
       else if 1/2 < Int.fract (100 * p.amount) then ⌊(100 * p.amount : ℚ)⌋ + 1
       else if ⌊(100 * p.amount : ℚ)⌋ % 2 = 0 then ⌊(100 * p.amount : ℚ)⌋
       else ⌊(100 * p.amount : ℚ)⌋ + 1) := by
  refine ⟨rfl, ?_, format2cents_eq_floor_based p.amount⟩
  show hgetAmount (saveApplied p l) (p.processed_by.getD "") p.correlation_id = _
  unfold hgetAmount
  rw [lookupRecord_saveApplied_self]
  rfl

/-- Claim C9 counterexample: the amount 0.125 (exactly `1/8`, an exact
`f64`) is stored as 12 hundredths, i.e. the string "0.12", while the
claimed round-half-away-from-zero gives 13 ("0.13"). -/
theorem c9_counterexample :
    hgetAmount (save payC9 {} true true).2 "default" "c9" = some 12 ∧
    specRoundHalfAwayCents payC9.amount = 13 ∧
    specRoundHalfAwayCents payC9.amount ≠ format2cents payC9.amount := by
  exact ⟨by decide, by decide, by decide⟩

/-- Claim C10: once a connection is obtained `is_already_processed`
never returns an error — a failed `ZSCORE` lookup is mapped to
`Ok(false)` — and a worker iteration whose dedup lookup fails therefore
does not skip the message but goes on to attempt a processor (issuing
the HTTP call whenever the default route is healthy and its breaker is
not open). -/
theorem c10_dedup_read_failure :
    (∀ zres : Except Unit (Option ℤ),
      is_already_processed true zres ≠ Except.error ()) ∧
    (is_already_processed true (Except.error ()) = Except.ok false) ∧
    (∀ (s : WState) (m : Message) (env : WorkerEnv),
      env.dedupConnOk = true → env.dedupLookupFail = true →
      (workerProcessMessage s m env).2.outcome ≠ StepOutcome.skippedDuplicate ∧
      (is_backend_failing_or_slow env.defaultHealth = false →
        s.default_breaker.st ≠ BreakerState.Open →
        (workerProcessMessage s m env).2.defaultCalled = true)) := by
  refine ⟨?_, rfl, ?_⟩
  · intro zres
    cases zres <;> simp [is_already_processed]
  · intro s m env hconn hlf
    unfold workerProcessMessage
    rw [hconn, hlf]
    simp only [if_true, is_already_processed]
    have hne : ¬((Except.ok false : Except Unit Bool) = Except.ok true) := by simp
    rw [if_neg hne]
    constructor
    · split_ifs <;> simp
    · intro hdf hb
      have hcall : (defaultPhase s m env).2.2.2 = true := by
        unfold defaultPhase
        rw [hdf]
        simp only [Bool.false_eq_true, if_false]
        exact attempt_called m.body "default" s.default_breaker s.ledger
          env.defaultExec hb
      split_ifs <;> simp [hcall]

/-- Claim C10 witness: with a failing dedup lookup on an empty store the
concrete message is still attempted (and processed) rather than
skipped. -/
theorem c10_witness :
    (workerProcessMessage {} msgA { envHappy with dedupLookupFail := true }).2.outcome ≠
      StepOutcome.skippedDuplicate ∧
    (workerProcessMessage {} msgA { envHappy with dedupLookupFail := true }).2.defaultCalled = true :=
  ⟨((c10_dedup_read_failure.2.2 {} msgA { envHappy with dedupLookupFail := true }
      rfl rfl).1),
   ((c10_dedup_read_failure.2.2 {} msgA { envHappy with dedupLookupFail := true }
      rfl rfl).2 rfl (by decide))⟩

/-- Claim C1: against a store whose queue and dedup reads work, any run
of the worker from a state in which a correlation id is pending in the
queue (with no ledger trace yet) leaves exactly one ledger record for
that id once the queue drains, whatever the health flags, HTTP outcomes,
breaker policy and save failures were; and a popped message whose id is
already in the time-indexed processed set is dropped: no processor is
contacted, the ledger is untouched and nothing is re-enqueued. -/
theorem c1_idempotent_application :
    (∀ (id : String) (s0 : WState) (envs : ℕ → WorkerEnv) (n : ℕ),
      isProcessedIndex s0.ledger id = false →
      recordCount s0.ledger id = 0 →
      queueHasId s0.queue id →
      (runWorker n s0 envs).queue = [] →
      recordCount (runWorker n s0 envs).ledger id = 1) ∧
    (∀ (s : WState) (m : Message) (env : WorkerEnv),
      env.dedupConnOk = true → env.dedupLookupFail = false →
      isProcessedIndex s.ledger m.body.correlation_id = true →
      workerProcessMessage s m env =
        (s, { outcome := StepOutcome.skippedDuplicate, defaultCalled := false,
              fallbackCalled := false })) := by
  constructor
  · intro id s0 envs n hidx hcnt hq hdrain
    have hInv0 : InvC1 id s0 := by
      constructor
      · intro ht
        rw [ht] at hidx
        cases hidx
      · intro _
        exact ⟨hcnt, hq⟩
    have hInv := invC1_runWorker id n s0 envs hInv0
    cases hLast : isProcessedIndex (runWorker n s0 envs).ledger id
    · obtain ⟨-, hqid⟩ := hInv.2 hLast
      rw [hdrain] at hqid
      obtain ⟨mm, hm, -⟩ := hqid
      exact absurd hm (List.not_mem_nil mm)
    · exact hInv.1 hLast
  · intro s m env hconn hlf hskip
    exact workerProcessMessage_skip s m env hconn hlf hskip

/-- Claim C1 witness: one enqueue of a concrete payment drains in one
step into exactly one ledger record, and a pre-seeded id is skipped
without any effect. -/
theorem c1_witness :
    recordCount (runWorker 1 { queue := [msgA] } (fun _ => envHappy)).ledger "a" = 1 ∧
    workerProcessMessage sSeed msgA envHappy =
      (sSeed, { outcome := StepOutcome.skippedDuplicate, defaultCalled := false,
                fallbackCalled := false }) :=
  ⟨c1_idempotent_application.1 "a" { queue := [msgA] } (fun _ => envHappy) 1
      (by decide) (by decide) ⟨msgA, by simp, rfl⟩ (by decide),
   c1_idempotent_application.2 sSeed msgA envHappy rfl rfl (by decide)⟩

/-- Claim C2 (amended): the router returns the default processor iff it
is registered, healthy, under 100 ms and its breaker is not open,
otherwise the fallback under the same conditions, otherwise nothing; and
a payment the worker processes while both processors' health flags are
healthy is recorded with `processed_by = "default"` provided the default
call itself succeeds (2xx and a successful save) — when the default call
fails the same pass may fall through to the fallback. -/
theorem c2_router_preference_amended :
    (∀ (r : RouterState) (dp fp : PaymentProcessor),
      lookupProc r.processors "default" = some dp →
      lookupProc r.processors "fallback" = some fp →
      get_processor_for_payment r =
        (if dp.health.is_healthy = true ∧ dp.min_response_time < 100 ∧
            r.default_breaker.st ≠ BreakerState.Open then
          some (dp.url, dp.name, r.default_breaker)
         else if fp.health.is_healthy = true ∧ fp.min_response_time < 100 ∧
            r.fallback_breaker.st ≠ BreakerState.Open then
          some (fp.url, fp.name, r.fallback_breaker)
         else none)) ∧
    (∀ (s : WState) (m : Message) (env : WorkerEnv),
      env.dedupConnOk = true → env.dedupLookupFail = false →
      isProcessedIndex s.ledger m.body.correlation_id = false →
      is_backend_failing_or_slow env.defaultHealth = false →
      s.default_breaker.st ≠ BreakerState.Open →
      env.defaultExec.outcome = HttpOutcome.success →
      env.defaultExec.saveConnOk = true → env.defaultExec.saveExecOk = true →
      (workerProcessMessage s m env).2.outcome = StepOutcome.processed "default" ∧
      lookupRecord (workerProcessMessage s m env).1.ledger
        ("default", m.body.correlation_id) =
        some (savedRec (stamped m.body "default" env.defaultExec))) := by
  constructor
  · intro r dp fp hd hf
    unfold get_processor_for_payment
    rw [hd, hf]
    by_cases h1 : dp.health.is_healthy = true ∧ dp.min_response_time < 100 ∧
        r.default_breaker.st ≠ BreakerState.Open
    · simp [h1]
    · by_cases h2 : fp.health.is_healthy = true ∧ fp.min_response_time < 100 ∧
          r.fallback_breaker.st ≠ BreakerState.Open
      · simp [h1, h2]
      · simp [h1, h2]
  · intro s m env hconn hlf hskip hdf hb ho hc he
    have ha1 : defaultPhase s m env =
        (true, saveApplied (stamped m.body "default" env.defaultExec) s.ledger,
         recordSuccess s.default_breaker, true) := by
      unfold defaultPhase
      rw [hdf]
      simp only [Bool.false_eq_true, if_false]
      exact attempt_fst_true m.body "default" s.default_breaker s.ledger
        env.defaultExec hb ho hc he
    rw [workerProcessMessage_attempts s m env hconn hlf hskip]
    simp only
    rw [ha1, fallbackPhase_of_processed]
    refine ⟨by simp, ?_⟩
    simpa using lookupRecord_saveApplied_self
      (stamped m.body "default" env.defaultExec) s.ledger

/-- Claim C2 witness: on a concrete router with both processors healthy
the default is selected, and a concrete happy-path worker pass records
`processed_by = "default"`. -/
theorem c2_witness :
    get_processor_for_payment routerBoth =
      some ("http://d", "default", ({} : Breaker)) ∧
    (workerProcessMessage {} msgA envHappy).2.outcome =
      StepOutcome.processed "default" :=
  ⟨(c2_router_preference_amended.1 routerBoth
      ⟨"default", "http://d", .Healthy, 50⟩ ⟨"fallback", "http://f", .Healthy, 50⟩
      (by decide) (by decide)).trans (by decide),
   (c2_router_preference_amended.2 {} msgA envHappy rfl rfl (by decide)
      (by decide) (by decide) rfl rfl rfl).1⟩

/-- Claim C2 counterexample: both processors are reported healthy and
fast and both breakers are closed, yet the payment's ledger record says
`processed_by = "fallback"`, because the default processor's actual call
returned a 5xx and the same worker pass fell through to the fallback. -/
theorem c2_counterexample :
    envFallbackWins.defaultHealth = Except.ok 0 ∧
    envFallbackWins.fallbackHealth = Except.ok 0 ∧
    ({} : WState).default_breaker.st = BreakerState.Closed ∧
    ({} : WState).fallback_breaker.st = BreakerState.Closed ∧
    (workerProcessMessage {} msgA envFallbackWins).2.outcome =
      StepOutcome.processed "fallback" ∧
    (lookupRecord (workerProcessMessage {} msgA envFallbackWins).1.ledger
      ("fallback", "a")).map (·.processed_by) = some (some "fallback") :=
  ⟨rfl, rfl, rfl, rfl, by decide, by decide⟩

/-- Claim C5 (amended): a 4xx from the chosen processor saves nothing to
the ledger, but the worker does not drop the message: the attempt merely
counts as not-processed, and when the other processor does not process
it either the same message is re-enqueued at the tail. -/
theorem c5_rejected_requeued_amended (s : WState) (m : Message)
    (env : WorkerEnv)
    (hconn : env.dedupConnOk = true) (hlf : env.dedupLookupFail = false)
    (hskip : isProcessedIndex s.ledger m.body.correlation_id = false)
    (hdf : is_backend_failing_or_slow env.defaultHealth = false)
    (hb : s.default_breaker.st ≠ BreakerState.Open)
    (ho : env.defaultExec.outcome = HttpOutcome.clientError)
    (hff : is_backend_failing_or_slow env.fallbackHealth = true)
    (hpush : env.requeuePushOk = true) :
    (workerProcessMessage s m env).1.ledger = s.ledger ∧
    (workerProcessMessage s m env).1.queue = s.queue ++ [m] ∧
    (workerProcessMessage s m env).2.outcome = StepOutcome.requeued ∧
    (workerProcessMessage s m env).2.defaultCalled = true := by
  have ha1 : defaultPhase s m env =
      (false, s.ledger, recordSuccess s.default_breaker, true) := by
    unfold defaultPhase attempt execute
    rw [hdf]
    simp [hb, ho]
  have ha2 : fallbackPhase false s.ledger s m env =
      (false, s.ledger, s.fallback_breaker, false) := by
    unfold fallbackPhase
    simp [hff]
  rw [workerProcessMessage_attempts s m env hconn hlf hskip]
  simp only
  rw [ha1]
  simp only
  rw [ha2]
  simp [hpush]

/-- Claim C5 witness: a concrete 4xx pass with the fallback gated off
re-enqueues the message and leaves the ledger empty. -/
theorem c5_witness :
    (workerProcessMessage {} msgA envClientErr).1.ledger = ({} : WState).ledger ∧
    (workerProcessMessage {} msgA envClientErr).1.queue = ({} : WState).queue ++ [msgA] ∧
    (workerProcessMessage {} msgA envClientErr).2.outcome = StepOutcome.requeued ∧
    (workerProcessMessage {} msgA envClientErr).2.defaultCalled = true :=
  c5_rejected_requeued_amended {} msgA envClientErr rfl rfl (by decide)
    (by decide) (by decide) rfl (by decide) rfl

/-- Claim C5 counterexample: after a 4xx from the default processor (the
only reachable one) the message is re-enqueued — the queue ends as
`[msgA]`, not empty — so a rejected payment is retried, not dropped. -/
theorem c5_counterexample :
    envClientErr.defaultExec.outcome = HttpOutcome.clientError ∧
    (workerProcessMessage {} msgA envClientErr).2.outcome = StepOutcome.requeued ∧
    (workerProcessMessage {} msgA envClientErr).1.queue = [msgA] ∧
    (workerProcessMessage {} msgA envClientErr).1.ledger = ({} : WState).ledger :=
  ⟨rfl, by decide, by decide, by decide⟩

/-- Claim C7 (amended): per probe cycle and processor — on a parsed 2xx
body the reported status and `minResponseTime` are written; on a non-2xx
or a transport error the entry is overwritten with `Failing` and
`min_response_time = 0` (not left untouched); on a 2xx body that fails
to parse the probe writes nothing at all (the previous status and
min_response_time both survive, the status is not set to `Failing`). -/
theorem c7_probe_update_amended (r : RouterState) (durl furl : String)
    (dres fres : HealthFetch) :
    ((dres = HealthFetch.parseError →
       lookupProc (probeCycle r durl furl dres fres).processors "default" =
         lookupProc r.processors "default") ∧
     (∀ (f : Bool) (mrt : ℕ), dres = HealthFetch.ok f mrt →
       lookupProc (probeCycle r durl furl dres fres).processors "default" =
         some ⟨"default", durl,
           if f then HealthStatus.Failing else HealthStatus.Healthy, mrt⟩) ∧
     ((dres = HealthFetch.non2xx ∨ dres = HealthFetch.netError) →
       lookupProc (probeCycle r durl furl dres fres).processors "default" =
         some ⟨"default", durl, HealthStatus.Failing, 0⟩)) ∧
    ((fres = HealthFetch.parseError →
       lookupProc (probeCycle r durl furl dres fres).processors "fallback" =
         lookupProc r.processors "fallback") ∧
     (∀ (f : Bool) (mrt : ℕ), fres = HealthFetch.ok f mrt →
       lookupProc (probeCycle r durl furl dres fres).processors "fallback" =
         some ⟨"fallback", furl,
           if f then HealthStatus.Failing else HealthStatus.Healthy, mrt⟩) ∧
     ((fres = HealthFetch.non2xx ∨ fres = HealthFetch.netError) →
       lookupProc (probeCycle r durl furl dres fres).processors "fallback" =
         some ⟨"fallback", furl, HealthStatus.Failing, 0⟩)) := by
  have houter : ∀ r' : RouterState,
      lookupProc (probeUpdate r' "fallback" furl fres).processors "default" =
        lookupProc r'.processors "default" := by
    intro r'
    cases fres <;>
      simp [probeUpdate, update_processor_health,
        lookupProc_insertProc_ne _ _ _ _ (by decide : "default" ≠ "fallback")]
  have hinner : lookupProc (probeUpdate r "default" durl dres).processors "fallback" =
      lookupProc r.processors "fallback" := by
    cases dres <;>
      simp [probeUpdate, update_processor_health,
        lookupProc_insertProc_ne _ _ _ _ (by decide : "fallback" ≠ "default")]
  refine ⟨⟨?_, ?_, ?_⟩, ⟨?_, ?_, ?_⟩⟩
  · intro hpe
    rw [probeCycle, houter, hpe]
    rfl
  · intro f mrt hok
    rw [probeCycle, houter, hok]
    simp [probeUpdate, update_processor_health, lookupProc_insertProc_self]
  · intro hbad
    rcases hbad with hbad | hbad <;>
      · rw [probeCycle, houter, hbad]
        simp [probeUpdate, update_processor_health, lookupProc_insertProc_self]
  · intro hpe
    rw [probeCycle, hpe]
    simpa [probeUpdate] using hinner
  · intro f mrt hok
    rw [probeCycle, hok]
    simp [probeUpdate, update_processor_health, lookupProc_insertProc_self]
  · intro hbad
    rcases hbad with hbad | hbad <;>
      · rw [probeCycle, hbad]
        simp [probeUpdate, update_processor_health, lookupProc_insertProc_self]

/-- Claim C7 witness: a concrete cycle — default gets a non-2xx and is
overwritten with `Failing`/0, fallback's body fails to parse and its
entry survives unchanged. -/
theorem c7_witness :
    lookupProc (probeCycle routerBoth "http://d" "http://f"
        HealthFetch.non2xx HealthFetch.parseError).processors "default" =
      some ⟨"default", "http://d", HealthStatus.Failing, 0⟩ ∧
    lookupProc (probeCycle routerBoth "http://d" "http://f"
        HealthFetch.non2xx HealthFetch.parseError).processors "fallback" =
      lookupProc routerBoth.processors "fallback" :=
  ⟨(c7_probe_update_amended routerBoth "http://d" "http://f"
      HealthFetch.non2xx HealthFetch.parseError).1.2.2 (Or.inl rfl),
   (c7_probe_update_amended routerBoth "http://d" "http://f"
      HealthFetch.non2xx HealthFetch.parseError).2.1 rfl⟩

/-- Claim C7 counterexample: the probe does not leave
`min_response_time_ms` untouched on a non-2xx — the default entry goes
from 50 to 0 — and a parse error does not set the status to `Failing` —
the fallback entry stays `Healthy`. -/
theorem c7_counterexample :
    lookupProc routerBoth.processors "default" =
      some ⟨"default", "http://d", HealthStatus.Healthy, 50⟩ ∧
    lookupProc (probeCycle routerBoth "http://d" "http://f"
        HealthFetch.non2xx HealthFetch.parseError).processors "default" =
      some ⟨"default", "http://d", HealthStatus.Failing, 0⟩ ∧
    lookupProc (probeCycle routerBoth "http://d" "http://f"
        HealthFetch.non2xx HealthFetch.parseError).processors "fallback" =
      some ⟨"fallback", "http://f", HealthStatus.Healthy, 50⟩ :=
  ⟨by decide, by decide, by decide⟩

/-- Claim C8 (amended): the envelope id of an enqueued message is the
payment's correlation id — `Message::with(command.correlation_id, _)` —
so enqueues of the same payment share one envelope id, and a re-enqueued
message is pushed back verbatim, keeping its original envelope id. -/
theorem c8_envelope_id_amended :
    (∀ (cmd : CreatePaymentCommand) (q : List Message),
      create_payment_execute cmd q true =
        Except.ok (q ++ [⟨cmd.correlation_id,
          ⟨cmd.correlation_id, cmd.amount, none, none, none⟩⟩])) ∧
    (∀ (s : WState) (m : Message) (env : WorkerEnv),
      (workerProcessMessage s m env).2.outcome = StepOutcome.requeued →
      (workerProcessMessage s m env).1.queue = s.queue ++ [m]) :=
  ⟨fun _ _ => rfl, workerProcessMessage_requeued_queue⟩

/-- Claim C8 witness: a concrete re-enqueue pushes back the identical
message. -/
theorem c8_witness :
    (workerProcessMessage {} msgAbc envClientErr).1.queue =
      ({} : WState).queue ++ [msgAbc] :=
  c8_envelope_id_amended.2 {} msgAbc envClientErr (by decide)

/-- Claim C8 counterexample: two enqueues of the same payment produce
two queue entries with the same envelope id ("abc" twice), and a
re-enqueued message carries the original envelope id — envelope ids are
not fresh per enqueue. -/
theorem c8_counterexample :
    create_payment_execute ⟨"abc", 1⟩ [] true = Except.ok [msgAbc] ∧
    create_payment_execute ⟨"abc", 1⟩ [msgAbc] true =
      Except.ok [msgAbc, msgAbc] ∧
    ([msgAbc, msgAbc].get ⟨0, by decide⟩).id =
      ([msgAbc, msgAbc].get ⟨1, by decide⟩).id ∧
    (workerProcessMessage {} msgAbc { envClientErr with requeuePushOk := true }).1.queue = [msgAbc] :=
  ⟨by decide, by decide, rfl, by decide⟩

end Rinha

